import Mathlib

/-!
# Verification of the BENCHLAB muxd core (Stage Pairer, Power Correlator, Multiplexer)

Shallow embedding of `src/apps/muxd/latency.py` and the relevant parts of
`src/apps/muxd/main.py`.  Python dicts become structures with `Option` fields
where a key may be absent; Python floats are modelled as `ℚ` (the operations
the claims mention — subtraction, division by 1e6, sums of rail powers —
are exact at the claimed inputs); `deque` becomes `List` with the head as the
oldest element (`popleft` = drop the head, `append` = append at the back).
-/

namespace Muxd

/-- `WINDOW_NS = 2_000_000_000` from latency.py: pair within 2s. -/
def WINDOW_NS : Int := 2000000000

/-- `MAX_BUFFER_SIZE = 100` from latency.py: prevent unbounded memory growth. -/
def MAX_BUFFER_SIZE : Nat := 100

/-- One per-rail entry of a benchlab record's `kv["power"]` list.
Only the `"power"` key participates in the tracked total
(`rail`, `voltage`, `current` feed Prometheus gauges only, outside this model);
`rail_data.get("power", 0)` defaults to 0 when absent, hence `Option`. -/
structure Rail where
  power : Option ℚ := none
deriving DecidableEq, Repr

/-- The `kv` payload of a parsed record, with the keys muxd reads.
`power = some rails` models `"power" in kv and isinstance(kv["power"], list)`;
a missing key or a non-list value is `none`. -/
structure KV where
  stage : Option String := none
  p_sys : Option ℚ := none
  power_w : Option ℚ := none
  power : Option (List Rail) := none
deriving DecidableEq, Repr

/-- A record after the alignment step has set `ts_aligned_ns`
(`rec["ts_aligned_ns"] = rec["ts_ns"]` in main.py). This is the shape the
Pairer consumes: `add` reads `rec.get("kv",{}).get("stage")` and `pairs`
reads `rec["ts_aligned_ns"]`. -/
structure Rec where
  ts_aligned_ns : Int
  kv : KV := {}
deriving DecidableEq, Repr

/-- A latency sample as built inside `Pairer.pairs`:
`{"t_ns": ta, "lat_ms": (tb - ta)/1e6, "pair": (self.a, self.b)}`. -/
structure Sample where
  t_ns : Int
  lat_ms : ℚ
  pair : String × String
deriving DecidableEq, Repr

/-- The dict literal appended in the pairing branch of `Pairer.pairs`. -/
def mkSample (na nb : String) (ta tb : Int) : Sample :=
  { t_ns := ta, lat_ms := ((tb - ta : Int) : ℚ) / 1000000, pair := (na, nb) }

/-- `Pairer` state: the two stage names and the two bounded FIFO deques. -/
structure Pairer where
  a : String := "ingress"
  b : String := "encoded"
  bufA : List Rec := []
  bufB : List Rec := []
deriving DecidableEq, Repr

/-- The enqueue performed in `Pairer.add` on one deque:
`if len(buf) >= MAX_BUFFER_SIZE: buf.popleft()` then `buf.append(rec)`. -/
def addQ (q : List Rec) (r : Rec) : List Rec :=
  (if MAX_BUFFER_SIZE ≤ q.length then q.drop 1 else q) ++ [r]

/-- `Pairer.add`: classify by `rec.get("kv",{}).get("stage")`; a record whose
stage matches neither configured name is ignored. -/
def Pairer.add (p : Pairer) (r : Rec) : Pairer :=
  if r.kv.stage = some p.a then { p with bufA := addQ p.bufA r }
  else if r.kv.stage = some p.b then { p with bufB := addQ p.bufB r }
  else p

/-- The `while self.bufA and self.bufB` loop of `Pairer.pairs`, with the two
deques passed explicitly; returns the emitted samples and the final deques. -/
def pairsGo (na nb : String) : List Rec → List Rec → List Sample × List Rec × List Rec
  | [], B => ([], [], B)
  | a :: A, [] => ([], a :: A, [])
  | a :: A, b :: B =>
    if b.ts_aligned_ns < a.ts_aligned_ns ∧
        WINDOW_NS < a.ts_aligned_ns - b.ts_aligned_ns then
      pairsGo na nb (a :: A) B
    else if a.ts_aligned_ns < b.ts_aligned_ns ∧
        WINDOW_NS < b.ts_aligned_ns - a.ts_aligned_ns then
      pairsGo na nb A (b :: B)
    else
      let rest := pairsGo na nb A B
      (mkSample na nb a.ts_aligned_ns b.ts_aligned_ns :: rest.1, rest.2.1, rest.2.2)
termination_by A B => A.length + B.length
decreasing_by all_goals simp_arith

/-- `Pairer.pairs`: returns the emitted list and the Pairer with its mutated
deques. -/
def Pairer.pairs (p : Pairer) : List Sample × Pairer :=
  let r := pairsGo p.a p.b p.bufA p.bufB
  (r.1, { p with bufA := r.2.1, bufB := r.2.2 })

/-! ## The main.py multiplexer loop -/

/-- One call of `next` on the generator of `tail_file`, with the file's pending
(not yet consumed) lines as a list and a fuel bound on loop iterations.  The
generator body is `while True: line = f.readline(); if not line:
time.sleep(0.05); continue; yield line` — on an empty readline it sleeps and
retries inside the generator instead of yielding a no-data signal, so the call
returns only when a line exists; `none` means the caller is still blocked after
the given number of retry iterations. -/
def tailNext : Nat → List String → Option (String × List String)
  | 0, _ => none
  | n + 1, [] => tailNext n []
  | _ + 1, l :: ls => some (l, ls)

/-- A record as decoded by `json.loads` in main.py, restricted to the keys the
loop reads.  `ts_ns` is `Option` because the line may lack the key. -/
structure PRec where
  ts_ns : Option Int := none
  kv : KV := {}
deriving DecidableEq, Repr

/-- `p = kv.get("p_sys") or kv.get("power_w")` — Python `or` falls through on a
falsy left operand, so a present `p_sys` equal to `0.0` behaves like an absent
one. -/
def legacyPower (kv : KV) : Option ℚ :=
  match kv.p_sys with
  | some v => if v = 0 then kv.power_w else some v
  | none => kv.power_w

/-- `total_power`: the fold over `kv["power"]` accumulating
`float(rail_data.get("power", 0))` from 0.0. -/
def railsTotal (rails : List Rail) : ℚ :=
  rails.foldl (fun acc r => acc + r.power.getD 0) 0

/-- The effect of the `key == "benchlab"` branch of main.py on `last_power`:
first the legacy scalar (`if p is not None: last_power = float(p)`), then, when
`kv["power"]` is a list, `last_power = total_power` overwrites it.
Gauge exports are external I/O and not part of this state. -/
def benchStep (last_power : Option ℚ) (kv : KV) : Option ℚ :=
  let lp := match legacyPower kv with
    | some p => some p
    | none => last_power
  match kv.power with
  | some rails => some (railsTotal rails)
  | none => lp

/-- One serialized line of `aligned/latency.jsonl`, field for field the dict
written by main.py: after `pr["ts_aligned_ns"] = pr.pop("t_ns")`,
`pr["source"] = "metric.latency"` and
`pr["kv"] = {"lat_ms": …, "pair": …, "power_w": last_power}`. -/
structure OutRec where
  ts_aligned_ns : Int
  source : String
  lat_ms : ℚ
  pair : String × String
  power_w : Option ℚ
deriving DecidableEq, Repr

/-- The rewrite main.py applies to one sample before
`aligned_latency.write(json.dumps(pr) + "\n"); aligned_latency.flush()`. -/
def serializeSample (last_power : Option ℚ) (s : Sample) : OutRec :=
  { ts_aligned_ns := s.t_ns, source := "metric.latency",
    lat_ms := s.lat_ms, pair := s.pair, power_w := last_power }

/-- Top-level JSON key names of a written latency line, in `json.dumps`
(insertion) order: `pop("t_ns")` removes the old key and the three assignments
leave `ts_aligned_ns`, `source`, `kv`. -/
def outTopKeys : List String := ["ts_aligned_ns", "source", "kv"]

/-- Key names inside the written line's `kv` object, in insertion order. -/
def outKvKeys : List String := ["lat_ms", "pair", "power_w"]

/-- Modelled from the spec: the top-level field names of the output-stream
schema in §6 (`aligned_timestamp_ns`, `source`, `fields`), for comparison with
what the code writes. -/
def specSchemaTopKeys : List String := ["aligned_timestamp_ns", "source", "fields"]

/-- Modelled from the spec: the field names inside `fields` of the §6
output-stream schema (`latency_ms`, `stage_pair`, `power_w`). -/
def specSchemaFieldKeys : List String := ["latency_ms", "stage_pair", "power_w"]

/-- Which raw file a line came from: dispatch in main.py is by the `tails` dict
key, not by any field of the record. -/
inductive SrcKey
  | pipeline
  | telemetry
  | benchlab
deriving DecidableEq, Repr

/-- The mutable state of the scheduling loop: the Pairer, `last_power`
(initialized `None`), the records written so far to `aligned/latency.jsonl`
(one entry per written-and-flushed line), and the Prometheus `c_dropped`
counter, which main.py creates but never increments. -/
structure MuxState where
  pairer : Pairer := {}
  last_power : Option ℚ := none
  outRecs : List OutRec := []
  dropped : Nat := 0
deriving DecidableEq, Repr

/-- Processing of one fetched line by the loop body of main.py.
`line = none` models a `json.loads` failure (the `except Exception: continue`);
otherwise `rec["ts_aligned_ns"] = rec["ts_ns"]` runs OUTSIDE any try block, so
a record without `ts_ns` raises `KeyError` out of the loop (`Except.error`).
Then dispatch on the source key: benchlab updates `last_power`; pipeline does
`pairer.add(rec)` followed by the drain-and-write loop; telemetry has no
branch. -/
def processLine (key : SrcKey) (st : MuxState) (line : Option PRec) :
    Except String MuxState :=
  match line with
  | none => .ok st
  | some pr =>
    match pr.ts_ns with
    | none => .error "KeyError: ts_ns"
    | some t =>
      let r : Rec := { ts_aligned_ns := t, kv := pr.kv }
      match key with
      | .benchlab => .ok { st with last_power := benchStep st.last_power pr.kv }
      | .pipeline =>
        let p1 := st.pairer.add r
        let drained := p1.pairs
        .ok { st with
              pairer := drained.2,
              outRecs := st.outRecs ++ drained.1.map (serializeSample st.last_power) }
      | .telemetry => .ok st

/-! ## Lemmas about the pairing loop -/

theorem pairsGo_nil_left (na nb : String) (B : List Rec) :
    pairsGo na nb [] B = ([], [], B) := by
  rw [pairsGo]

theorem pairsGo_nil_right (na nb : String) (a : Rec) (A : List Rec) :
    pairsGo na nb (a :: A) [] = ([], a :: A, []) := by
  rw [pairsGo]

theorem pairsGo_cons_staleB (na nb : String) (a b : Rec) (A B : List Rec)
    (h1 : b.ts_aligned_ns < a.ts_aligned_ns)
    (h2 : WINDOW_NS < a.ts_aligned_ns - b.ts_aligned_ns) :
    pairsGo na nb (a :: A) (b :: B) = pairsGo na nb (a :: A) B := by
  have hc : b.ts_aligned_ns < a.ts_aligned_ns ∧
      WINDOW_NS < a.ts_aligned_ns - b.ts_aligned_ns := ⟨h1, h2⟩
  rw [pairsGo, if_pos hc]

theorem pairsGo_cons_staleA (na nb : String) (a b : Rec) (A B : List Rec)
    (h1 : a.ts_aligned_ns < b.ts_aligned_ns)
    (h2 : WINDOW_NS < b.ts_aligned_ns - a.ts_aligned_ns) :
    pairsGo na nb (a :: A) (b :: B) = pairsGo na nb A (b :: B) := by
  have hn : ¬ (b.ts_aligned_ns < a.ts_aligned_ns ∧
      WINDOW_NS < a.ts_aligned_ns - b.ts_aligned_ns) := by omega
  have hc : a.ts_aligned_ns < b.ts_aligned_ns ∧
      WINDOW_NS < b.ts_aligned_ns - a.ts_aligned_ns := ⟨h1, h2⟩
  rw [pairsGo, if_neg hn, if_pos hc]

theorem pairsGo_cons_within (na nb : String) (a b : Rec) (A B : List Rec)
    (h : |a.ts_aligned_ns - b.ts_aligned_ns| ≤ WINDOW_NS) :
    pairsGo na nb (a :: A) (b :: B) =
      (mkSample na nb a.ts_aligned_ns b.ts_aligned_ns :: (pairsGo na nb A B).1,
       (pairsGo na nb A B).2.1, (pairsGo na nb A B).2.2) := by
  rw [abs_le] at h
  rw [pairsGo]
  have hn1 : ¬ (b.ts_aligned_ns < a.ts_aligned_ns ∧
      WINDOW_NS < a.ts_aligned_ns - b.ts_aligned_ns) := by omega
  have hn2 : ¬ (a.ts_aligned_ns < b.ts_aligned_ns ∧
      WINDOW_NS < b.ts_aligned_ns - a.ts_aligned_ns) := by omega
  simp only [if_neg hn1, if_neg hn2]

/-- Under the all-pairs-within-window hypothesis the loop is a plain zip:
oldest head pairs with oldest head until one queue empties. -/
theorem pairsGo_all_within (na nb : String) :
    ∀ (A B : List Rec),
      (∀ a ∈ A, ∀ b ∈ B, |a.ts_aligned_ns - b.ts_aligned_ns| ≤ WINDOW_NS) →
      pairsGo na nb A B =
        (List.zipWith (fun a b => mkSample na nb a.ts_aligned_ns b.ts_aligned_ns) A B,
         A.drop B.length, B.drop A.length)
  | [], B, _ => by simp [pairsGo_nil_left]
  | a :: A, [], _ => by simp [pairsGo_nil_right]
  | a :: A, b :: B, h => by
    have hab := h a (by simp) b (by simp)
    rw [pairsGo_cons_within na nb a b A B hab,
        pairsGo_all_within na nb A B (fun x hx y hy => h x (by simp [hx]) y (by simp [hy]))]
    simp

/-- Every emitted sample is the `mkSample` of one buffered A event and one
buffered B event whose timestamps are within the window. -/
theorem pairsGo_mem (na nb : String) :
    ∀ (A B : List Rec), ∀ s ∈ (pairsGo na nb A B).1,
      ∃ a ∈ A, ∃ b ∈ B,
        |a.ts_aligned_ns - b.ts_aligned_ns| ≤ WINDOW_NS ∧
        s = mkSample na nb a.ts_aligned_ns b.ts_aligned_ns := by
  intro A B
  induction A, B using pairsGo.induct na nb with
  | case1 B => simp [pairsGo_nil_left]
  | case2 a A => simp [pairsGo_nil_right]
  | case3 a A b B h ih =>
    rw [pairsGo_cons_staleB na nb a b A B h.1 h.2]
    intro s hs
    obtain ⟨x, hx, y, hy, hw, hse⟩ := ih s hs
    exact ⟨x, hx, y, by simp [hy], hw, hse⟩
  | case4 a A b B h1 h2 ih =>
    rw [pairsGo_cons_staleA na nb a b A B h2.1 h2.2]
    intro s hs
    obtain ⟨x, hx, y, hy, hw, hse⟩ := ih s hs
    exact ⟨x, by simp [hx], y, hy, hw, hse⟩
  | case5 a A b B h1 h2 ih =>
    have hW : (0 : Int) ≤ WINDOW_NS := by decide
    have hw : |a.ts_aligned_ns - b.ts_aligned_ns| ≤ WINDOW_NS := by
      rw [abs_le]; omega
    rw [pairsGo_cons_within na nb a b A B hw]
    intro s hs
    rcases List.mem_cons.mp hs with hse | hs'
    · exact ⟨a, by simp, b, by simp, hw, hse⟩
    · obtain ⟨x, hx, y, hy, hw', hse⟩ := ih s hs'
      exact ⟨x, by simp [hx], y, by simp [hy], hw', hse⟩

/-- The loop only pops from the buffers: the final deques are no longer than
the initial ones. -/
theorem pairsGo_len_le (na nb : String) :
    ∀ (A B : List Rec),
      (pairsGo na nb A B).2.1.length ≤ A.length ∧
      (pairsGo na nb A B).2.2.length ≤ B.length := by
  intro A B
  induction A, B using pairsGo.induct na nb with
  | case1 B => simp [pairsGo_nil_left]
  | case2 a A => simp [pairsGo_nil_right]
  | case3 a A b B h ih =>
    rw [pairsGo_cons_staleB na nb a b A B h.1 h.2]
    exact ⟨ih.1, Nat.le_succ_of_le ih.2⟩
  | case4 a A b B h1 h2 ih =>
    rw [pairsGo_cons_staleA na nb a b A B h2.1 h2.2]
    exact ⟨Nat.le_succ_of_le ih.1, ih.2⟩
  | case5 a A b B h1 h2 ih =>
    have hW : (0 : Int) ≤ WINDOW_NS := by decide
    have hw : |a.ts_aligned_ns - b.ts_aligned_ns| ≤ WINDOW_NS := by
      rw [abs_le]; omega
    rw [pairsGo_cons_within na nb a b A B hw]
    exact ⟨Nat.le_succ_of_le ih.1, Nat.le_succ_of_le ih.2⟩

/-! ## Claim theorems -/

/-- C1: For every pair of stage-A/stage-B event sequences supplied to the
Pairer in FIFO arrival order, with every A timestamp within `WINDOW_NS` of
every B timestamp, `pairs()` emits exactly `min(count_A, count_B)`
LatencySamples, matching oldest A head with oldest B head (the i-th sample is
the `mkSample` of the i-th A event and the i-th B event, with no lookahead),
and stops when either queue empties. -/
theorem C1_pairs_fifo_min (p : Pairer)
    (h : ∀ a ∈ p.bufA, ∀ b ∈ p.bufB,
        |a.ts_aligned_ns - b.ts_aligned_ns| ≤ WINDOW_NS) :
    p.pairs.1 = List.zipWith
        (fun a b => mkSample p.a p.b a.ts_aligned_ns b.ts_aligned_ns)
        p.bufA p.bufB ∧
    p.pairs.1.length = min p.bufA.length p.bufB.length ∧
    (p.pairs.2.bufA = [] ∨ p.pairs.2.bufB = []) := by
  have hz := pairsGo_all_within p.a p.b p.bufA p.bufB h
  unfold Pairer.pairs
  rw [hz]
  refine ⟨rfl, by simp, ?_⟩
  rcases le_total p.bufA.length p.bufB.length with hle | hle
  · exact Or.inl (List.drop_eq_nil_of_le hle)
  · exact Or.inr (List.drop_eq_nil_of_le hle)

/-- Witness for C1 at a concrete input: two A events, one B event, all within
the window; exactly `min 2 1 = 1` sample is emitted and the B queue empties. -/
theorem C1_pairs_fifo_min_witness :
    (∀ a ∈ (⟨"ingress", "encoded", [⟨10, {}⟩, ⟨20, {}⟩], [⟨12, {}⟩]⟩ : Pairer).bufA,
      ∀ b ∈ (⟨"ingress", "encoded", [⟨10, {}⟩, ⟨20, {}⟩], [⟨12, {}⟩]⟩ : Pairer).bufB,
        |a.ts_aligned_ns - b.ts_aligned_ns| ≤ WINDOW_NS) ∧
    ((⟨"ingress", "encoded", [⟨10, {}⟩, ⟨20, {}⟩], [⟨12, {}⟩]⟩ : Pairer).pairs.1.length
      = min 2 1 ∧
    ((⟨"ingress", "encoded", [⟨10, {}⟩, ⟨20, {}⟩], [⟨12, {}⟩]⟩ : Pairer).pairs.2.bufA = [] ∨
     (⟨"ingress", "encoded", [⟨10, {}⟩, ⟨20, {}⟩], [⟨12, {}⟩]⟩ : Pairer).pairs.2.bufB = [])) :=
  ⟨by decide,
   (C1_pairs_fifo_min ⟨"ingress", "encoded", [⟨10, {}⟩, ⟨20, {}⟩], [⟨12, {}⟩]⟩
      (by decide)).2⟩

/-- C2: whenever the two queue heads differ by strictly more than `WINDOW_NS`,
in either order, the loop discards the older head (pops it from its queue)
without emitting any sample, before any pairing is attempted: the run equals
the run on the queues with that head removed. -/
theorem C2_stale_head_discarded (na nb : String) (a b : Rec) (A B : List Rec) :
    (b.ts_aligned_ns < a.ts_aligned_ns ∧
        WINDOW_NS < a.ts_aligned_ns - b.ts_aligned_ns →
      pairsGo na nb (a :: A) (b :: B) = pairsGo na nb (a :: A) B) ∧
    (a.ts_aligned_ns < b.ts_aligned_ns ∧
        WINDOW_NS < b.ts_aligned_ns - a.ts_aligned_ns →
      pairsGo na nb (a :: A) (b :: B) = pairsGo na nb A (b :: B)) :=
  ⟨fun h => pairsGo_cons_staleB na nb a b A B h.1 h.2,
   fun h => pairsGo_cons_staleA na nb a b A B h.1 h.2⟩

/-- Witness for C2 at concrete inputs: a stale B head (3s older than the A
head) is dropped, and a stale A head (3s older than the B head) is dropped;
in both runs no sample is emitted. -/
theorem C2_stale_head_discarded_witness :
    ((5000000000 : Int) < 8000000000 ∧ WINDOW_NS < 8000000000 - 5000000000 ∧
      pairsGo "ingress" "encoded" [⟨8000000000, {}⟩] [⟨5000000000, {}⟩]
        = pairsGo "ingress" "encoded" [⟨8000000000, {}⟩] []) ∧
    ((5000000000 : Int) < 8000000000 ∧ WINDOW_NS < 8000000000 - 5000000000 ∧
      pairsGo "ingress" "encoded" [⟨5000000000, {}⟩] [⟨8000000000, {}⟩]
        = pairsGo "ingress" "encoded" [] [⟨8000000000, {}⟩]) :=
  ⟨⟨by decide, by decide,
    (C2_stale_head_discarded "ingress" "encoded" ⟨8000000000, {}⟩ ⟨5000000000, {}⟩ [] []).1
      ⟨by decide, by decide⟩⟩,
   ⟨by decide, by decide,
    (C2_stale_head_discarded "ingress" "encoded" ⟨5000000000, {}⟩ ⟨8000000000, {}⟩ [] []).2
      ⟨by decide, by decide⟩⟩⟩

/-- C3: heads within `WINDOW_NS` of each other (either order) are both popped
and exactly one sample is emitted for them, with
`lat_ms = (tb - ta)/1e6` and `pair = (a, b)`; when `tb < ta` but within the
window the emitted `lat_ms` is negative. -/
theorem C3_within_window_emit (na nb : String) (a b : Rec) (A B : List Rec)
    (h : |a.ts_aligned_ns - b.ts_aligned_ns| ≤ WINDOW_NS) :
    pairsGo na nb (a :: A) (b :: B) =
      (mkSample na nb a.ts_aligned_ns b.ts_aligned_ns :: (pairsGo na nb A B).1,
       (pairsGo na nb A B).2.1, (pairsGo na nb A B).2.2) ∧
    (mkSample na nb a.ts_aligned_ns b.ts_aligned_ns).lat_ms
      = ((b.ts_aligned_ns - a.ts_aligned_ns : Int) : ℚ) / 1000000 ∧
    (mkSample na nb a.ts_aligned_ns b.ts_aligned_ns).pair = (na, nb) ∧
    (b.ts_aligned_ns < a.ts_aligned_ns →
      (mkSample na nb a.ts_aligned_ns b.ts_aligned_ns).lat_ms < 0) := by
  refine ⟨pairsGo_cons_within na nb a b A B h, rfl, rfl, fun hlt => ?_⟩
  have hnum : ((b.ts_aligned_ns - a.ts_aligned_ns : Int) : ℚ) < 0 := by
    exact_mod_cast Int.sub_neg_of_lt hlt
  exact div_neg_of_neg_of_pos hnum (by norm_num) |>.trans_le (le_refl 0)

/-- Witness for C3: the spec's concrete instance `ta = 10`, `tb = 12` emits
`lat_ms = (12 - 10)/1e6`, and the in-window reversed pair `ta = 12`, `tb = 10`
emits a negative `lat_ms`. -/
theorem C3_within_window_emit_witness :
    (|(10 : Int) - 12| ≤ WINDOW_NS ∧
      pairsGo "ingress" "encoded" [⟨10, {}⟩] [⟨12, {}⟩] =
        (mkSample "ingress" "encoded" 10 12 :: (pairsGo "ingress" "encoded" [] []).1,
         (pairsGo "ingress" "encoded" [] []).2.1,
         (pairsGo "ingress" "encoded" [] []).2.2) ∧
      (mkSample "ingress" "encoded" 10 12).lat_ms = ((12 - 10 : Int) : ℚ) / 1000000) ∧
    (|(12 : Int) - 10| ≤ WINDOW_NS ∧
      (mkSample "ingress" "encoded" 12 10).lat_ms < 0) :=
  ⟨⟨by decide,
    (C3_within_window_emit "ingress" "encoded" ⟨10, {}⟩ ⟨12, {}⟩ [] [] (by decide)).1,
    (C3_within_window_emit "ingress" "encoded" ⟨10, {}⟩ ⟨12, {}⟩ [] [] (by decide)).2.1⟩,
   ⟨by decide,
    (C3_within_window_emit "ingress" "encoded" ⟨12, {}⟩ ⟨10, {}⟩ [] [] (by decide)).2.2.2
      (by decide)⟩⟩

/-- A queue of `MAX_BUFFER_SIZE` events with integer timestamps `0..99`,
used as the concrete full queue in witnesses. -/
def fullQ : List Rec :=
  (List.range MAX_BUFFER_SIZE).map (fun i => { ts_aligned_ns := (i : Int) })

/-- C6: enqueuing onto a full queue evicts exactly the oldest element before
appending the newest (the resulting queue is the 2nd through 101st events in
FIFO order and has size 100), and the `≤ MAX_BUFFER_SIZE` bound is preserved
by `add` (on both buffers) and by `pairs` (which only pops). -/
theorem C6_bounded_queues :
    (∀ (q : List Rec) (e : Rec), q.length = MAX_BUFFER_SIZE →
      addQ q e = q.drop 1 ++ [e] ∧ (addQ q e).length = MAX_BUFFER_SIZE) ∧
    (∀ (p : Pairer) (r : Rec),
      p.bufA.length ≤ MAX_BUFFER_SIZE → p.bufB.length ≤ MAX_BUFFER_SIZE →
      (p.add r).bufA.length ≤ MAX_BUFFER_SIZE ∧
      (p.add r).bufB.length ≤ MAX_BUFFER_SIZE) ∧
    (∀ p : Pairer,
      p.pairs.2.bufA.length ≤ p.bufA.length ∧
      p.pairs.2.bufB.length ≤ p.bufB.length) := by
  have hM : 1 ≤ MAX_BUFFER_SIZE := by decide
  have haddQ : ∀ (q : List Rec) (e : Rec),
      (addQ q e).length
        = if MAX_BUFFER_SIZE ≤ q.length then q.length else q.length + 1 := by
    intro q e
    unfold addQ
    by_cases hle : MAX_BUFFER_SIZE ≤ q.length
    · rw [if_pos hle, if_pos hle]
      simp only [List.length_append, List.length_drop, List.length_singleton]
      omega
    · rw [if_neg hle, if_neg hle]
      simp
  refine ⟨fun q e hq => ⟨?_, ?_⟩, fun p r hA hB => ?_, fun p => ?_⟩
  · unfold addQ
    rw [if_pos (le_of_eq hq.symm)]
  · rw [haddQ q e, if_pos (le_of_eq hq.symm), hq]
  · unfold Pairer.add
    split
    · refine ⟨?_, hB⟩
      show (addQ p.bufA r).length ≤ MAX_BUFFER_SIZE
      rw [haddQ]
      split <;> omega
    · split
      · refine ⟨hA, ?_⟩
        show (addQ p.bufB r).length ≤ MAX_BUFFER_SIZE
        rw [haddQ]
        split <;> omega
      · exact ⟨hA, hB⟩
  · unfold Pairer.pairs
    exact pairsGo_len_le p.a p.b p.bufA p.bufB

/-- Witness for C6 at a concrete full queue: the 101st event displaces the
oldest of `fullQ`, and on a Pairer at capacity `add` keeps both bounds. -/
theorem C6_bounded_queues_witness :
    (fullQ.length = MAX_BUFFER_SIZE ∧
      addQ fullQ ⟨100, {}⟩ = fullQ.drop 1 ++ [⟨100, {}⟩] ∧
      (addQ fullQ ⟨100, {}⟩).length = MAX_BUFFER_SIZE) ∧
    (({ bufA := fullQ, bufB := [] } : Pairer).bufA.length ≤ MAX_BUFFER_SIZE ∧
     (({ bufA := fullQ, bufB := [] } : Pairer).add
        ⟨100, { stage := some "ingress" }⟩).bufA.length ≤ MAX_BUFFER_SIZE ∧
     (({ bufA := fullQ, bufB := [] } : Pairer).add
        ⟨100, { stage := some "ingress" }⟩).bufB.length ≤ MAX_BUFFER_SIZE) :=
  ⟨⟨by decide,
    (C6_bounded_queues.1 fullQ ⟨100, {}⟩ (by decide)).1,
    (C6_bounded_queues.1 fullQ ⟨100, {}⟩ (by decide)).2⟩,
   ⟨by decide,
    (C6_bounded_queues.2.1 ({ bufA := fullQ, bufB := [] } : Pairer)
      ⟨100, { stage := some "ingress" }⟩ (by decide) (by decide)).1,
    (C6_bounded_queues.2.1 ({ bufA := fullQ, bufB := [] } : Pairer)
      ⟨100, { stage := some "ingress" }⟩ (by decide) (by decide)).2⟩⟩

/-- C10: every sample emitted by `pairs()` records as its aligned timestamp
the timestamp of the stage-A event of the pair (`t_ns = ta`), never the
stage-B event's timestamp (whenever the two differ) and never a combination:
the sample is literally `mkSample` of the two paired events, whose `t_ns`
field is the A timestamp. -/
theorem C10_sample_timestamp_from_A (p : Pairer) (s : Sample)
    (hs : s ∈ p.pairs.1) :
    ∃ a ∈ p.bufA, ∃ b ∈ p.bufB,
      |a.ts_aligned_ns - b.ts_aligned_ns| ≤ WINDOW_NS ∧
      s = mkSample p.a p.b a.ts_aligned_ns b.ts_aligned_ns ∧
      s.t_ns = a.ts_aligned_ns ∧
      (a.ts_aligned_ns ≠ b.ts_aligned_ns → s.t_ns ≠ b.ts_aligned_ns) := by
  obtain ⟨a, ha, b, hb, hw, hse⟩ := pairsGo_mem p.a p.b p.bufA p.bufB s hs
  refine ⟨a, ha, b, hb, hw, hse, ?_, ?_⟩
  · rw [hse]; rfl
  · intro hne
    rw [hse]
    exact fun hcontra => hne hcontra

/-- Witness for C10: in the concrete run pairing A at 10 with B at 12, the
emitted sample's timestamp is 10 (the A side), not 12. -/
theorem C10_sample_timestamp_from_A_witness :
    mkSample "ingress" "encoded" 10 12 ∈
      (⟨"ingress", "encoded", [⟨10, {}⟩], [⟨12, {}⟩]⟩ : Pairer).pairs.1 ∧
    ∃ a ∈ (⟨"ingress", "encoded", [⟨10, {}⟩], [⟨12, {}⟩]⟩ : Pairer).bufA,
      ∃ b ∈ (⟨"ingress", "encoded", [⟨10, {}⟩], [⟨12, {}⟩]⟩ : Pairer).bufB,
        |a.ts_aligned_ns - b.ts_aligned_ns| ≤ WINDOW_NS ∧
        mkSample "ingress" "encoded" 10 12
          = mkSample "ingress" "encoded" a.ts_aligned_ns b.ts_aligned_ns ∧
        (mkSample "ingress" "encoded" 10 12).t_ns = a.ts_aligned_ns ∧
        (a.ts_aligned_ns ≠ b.ts_aligned_ns →
          (mkSample "ingress" "encoded" 10 12).t_ns ≠ b.ts_aligned_ns) := by
  have h1 : (⟨"ingress", "encoded", [⟨10, {}⟩], [⟨12, {}⟩]⟩ : Pairer).pairs.1
      = [mkSample "ingress" "encoded" 10 12] := by
    unfold Pairer.pairs
    rw [pairsGo_cons_within "ingress" "encoded" ⟨10, {}⟩ ⟨12, {}⟩ [] [] (by decide),
        pairsGo_nil_left]
  exact ⟨by rw [h1]; exact List.mem_singleton.mpr rfl,
    C10_sample_timestamp_from_A ⟨"ingress", "encoded", [⟨10, {}⟩], [⟨12, {}⟩]⟩
      (mkSample "ingress" "encoded" 10 12)
      (by rw [h1]; exact List.mem_singleton.mpr rfl)⟩

/-- The loop body returns immediately with no samples when the B deque is
empty, leaving the A deque untouched. -/
theorem pairsGo_nil_right_any (na nb : String) (A : List Rec) :
    pairsGo na nb A [] = ([], A, []) := by
  cases A with
  | nil => rw [pairsGo_nil_left]
  | cons a A => rw [pairsGo_nil_right]

/-- `pairs()` on a Pairer whose B deque is empty emits nothing and leaves the
Pairer unchanged. -/
theorem Pairer.pairs_nilB (p : Pairer) (h : p.bufB = []) :
    p.pairs = ([], p) := by
  obtain ⟨a, b, A, B⟩ := p
  simp only at h
  subst h
  unfold Pairer.pairs
  rw [pairsGo_nil_right_any]

/-- C4 (divergence evidence): a fetch from a source with no pending data never
completes — `tailNext n [] = none` for every retry budget `n`, because the
generator sleeps and retries internally instead of yielding a no-data signal —
while a source with a pending line returns it on the first iteration.  The
claim's non-blocking poll does not exist in the code. -/
theorem C4_tail_fetch_blocks_on_empty :
    (∀ n : Nat, tailNext n [] = none) ∧
    (∀ (l : String) (ls : List String), tailNext 1 (l :: ls) = some (l, ls)) := by
  constructor
  · intro n
    induction n with
    | zero => rfl
    | succ n ih => rw [tailNext]; exact ih
  · intro l ls
    rfl

/-- C5 (divergence evidence): a decoded record that lacks `ts_ns` makes the
loop body raise (`rec["ts_aligned_ns"] = rec["ts_ns"]` is outside every
`try`), rather than being dropped silently: `processLine` returns
`Except.error`, for every source key and every loop state. -/
theorem C5_missing_ts_ns_raises (key : SrcKey) (st : MuxState) (pr : PRec)
    (h : pr.ts_ns = none) :
    processLine key st (some pr) = Except.error "KeyError: ts_ns" := by
  obtain ⟨ts, kv⟩ := pr
  have h2 : ts = none := h
  subst h2
  rfl

/-- Witness for C5: the concrete valid-JSON record `{"kv":{"stage":"ingress"}}`
(no `ts_ns`) raises out of the loop from the fresh initial state. -/
theorem C5_missing_ts_ns_raises_witness :
    ({ kv := { stage := some "ingress" } } : PRec).ts_ns = none ∧
    processLine .pipeline {} (some { kv := { stage := some "ingress" } })
      = Except.error "KeyError: ts_ns" :=
  ⟨rfl, C5_missing_ts_ns_raises .pipeline {} { kv := { stage := some "ingress" } } rfl⟩

/-- C7 (counterexample): a record carrying only the legacy scalar
`p_sys = 0.0` does NOT set the tracked power to that scalar — Python's
`kv.get("p_sys") or kv.get("power_w")` treats the falsy `0.0` as absent, so
the previously tracked value (here `3.0`) survives. -/
theorem C7_zero_scalar_not_tracked :
    benchStep (some 3) { p_sys := some 0 } = some 3 ∧
    benchStep (some 3) { p_sys := some 0 } ≠ some 0 := by
  constructor <;> decide

/-- C7 (amended): with a per-rail list the tracked total is the sum of the
rail powers (rails `[{power:5.0},{power:7.0}]` give exactly `12.0`),
superseding any legacy scalar in the same record; a legacy-only record sets
the tracked value to its scalar, except that a `p_sys` equal to `0` falls
through to `power_w` (and leaves the tracked value unchanged when `power_w`
is absent). -/
theorem C7_power_correlator (lp : Option ℚ) (kv : KV) :
    (∀ rails, kv.power = some rails → benchStep lp kv = some (railsTotal rails)) ∧
    railsTotal [⟨some 5⟩, ⟨some 7⟩] = 12 ∧
    (∀ v : ℚ, kv.power = none → kv.p_sys = some v → v ≠ 0 →
      benchStep lp kv = some v) ∧
    (∀ w : ℚ, kv.power = none → kv.p_sys = none → kv.power_w = some w →
      benchStep lp kv = some w) ∧
    (kv.power = none → kv.p_sys = some 0 → kv.power_w = none →
      benchStep lp kv = lp) := by
  refine ⟨?_, by norm_num [railsTotal], ?_, ?_, ?_⟩
  · intro rails h
    unfold benchStep
    rw [h]
  · intro v hpow hsys hv
    simp [benchStep, legacyPower, hpow, hsys, hv]
  · intro w hpow hsys hw
    simp [benchStep, legacyPower, hpow, hsys, hw]
  · intro hpow hsys hw
    simp [benchStep, legacyPower, hpow, hsys, hw]

/-- Witness for C7 at concrete records: rails `[5.0, 7.0]` with a competing
legacy `power_w = 4.0` track `12.0`; a lone non-zero scalar `p_sys = 42`
tracks `42`; a lone `power_w = 9` tracks `9`. -/
theorem C7_power_correlator_witness :
    (({ power_w := some 4, power := some [⟨some 5⟩, ⟨some 7⟩] } : KV).power
        = some [⟨some 5⟩, ⟨some 7⟩] ∧
      benchStep (some 3) { power_w := some 4, power := some [⟨some 5⟩, ⟨some 7⟩] }
        = some (railsTotal [⟨some 5⟩, ⟨some 7⟩]) ∧
      railsTotal [⟨some 5⟩, ⟨some 7⟩] = 12) ∧
    (benchStep none { p_sys := some 42 } = some 42 ∧ (42 : ℚ) ≠ 0) ∧
    benchStep none { power_w := some 9 } = some 9 :=
  ⟨⟨rfl,
    (C7_power_correlator (some 3)
        { power_w := some 4, power := some [⟨some 5⟩, ⟨some 7⟩] }).1
      [⟨some 5⟩, ⟨some 7⟩] rfl,
    (C7_power_correlator (some 3)
        { power_w := some 4, power := some [⟨some 5⟩, ⟨some 7⟩] }).2.1⟩,
   ⟨(C7_power_correlator none { p_sys := some 42 }).2.2.1 42 rfl rfl (by decide),
    by decide⟩,
   (C7_power_correlator none { power_w := some 9 }).2.2.2.1 9 rfl rfl rfl⟩

/-- A pipeline record (post-alignment) at 1000 ns tagged with the default A
stage, used to overflow a full queue. -/
def evR : Rec := { ts_aligned_ns := 1000, kv := { stage := some "ingress" } }

/-- The same record as decoded from its input line. -/
def evPRec : PRec := { ts_ns := some 1000, kv := { stage := some "ingress" } }

/-- A loop state whose A deque is at capacity. -/
def st100 : MuxState := { pairer := { bufA := fullQ } }

/-- The loop state after feeding `evPRec` to `st100`: the A deque evicted its
oldest element and took the new one; nothing else changed. -/
def st101 : MuxState := { pairer := { bufA := addQ fullQ evR } }

/-- C8 (counterexample): feeding a 101st stage-A event to a loop state whose A
deque is full performs a FIFO eviction, yet the dropped-event counter stays 0
instead of the 1 the claim requires. -/
theorem C8_eviction_not_counted :
    processLine .pipeline st100 (some evPRec) = Except.ok st101 ∧
    st100.pairer.bufA.length = MAX_BUFFER_SIZE ∧
    st101.pairer.bufA = fullQ.drop 1 ++ [evR] ∧
    st101.pairer.bufA.length = MAX_BUFFER_SIZE ∧
    st101.dropped = 0 ∧ (0 : Nat) ≠ 1 := by
  refine ⟨?_, by decide, by decide, by decide, rfl, by decide⟩
  have hadd : st100.pairer.add evR = st101.pairer := by decide
  have hpairs : (st100.pairer.add evR).pairs = ([], st101.pairer) := by
    rw [hadd]
    exact Pairer.pairs_nilB st101.pairer rfl
  show Except.ok
      { st100 with
        pairer := (st100.pairer.add evR).pairs.2,
        outRecs := st100.outRecs ++
          ((st100.pairer.add evR).pairs.1).map (serializeSample st100.last_power) }
    = Except.ok st101
  rw [hpairs]
  rfl

/-- C8 (amended): the Prometheus `c_dropped` counter is created but never
incremented — every successful loop step leaves it unchanged, and it starts
at 0 — so evictions are silent rather than counted. -/
theorem C8_dropped_counter_never_incremented (key : SrcKey) (st : MuxState)
    (line : Option PRec) (st' : MuxState)
    (h : processLine key st line = Except.ok st') :
    st'.dropped = st.dropped ∧ ({} : MuxState).dropped = 0 := by
  refine ⟨?_, rfl⟩
  unfold processLine at h
  repeat' split at h
  all_goals first
    | exact Except.noConfusion h
    | (injection h with h; subst h; rfl)

/-- Witness for C8 (amended) at a concrete step: an empty poll leaves the
counter unchanged at 0. -/
theorem C8_dropped_counter_never_incremented_witness :
    processLine .telemetry {} none = Except.ok {} ∧
    (({} : MuxState).dropped = ({} : MuxState).dropped ∧
      ({} : MuxState).dropped = 0) :=
  ⟨rfl, C8_dropped_counter_never_incremented .telemetry {} none {} rfl⟩

/-- C9 (counterexample): the field names the code writes —
`ts_aligned_ns` / `source` / `kv` at top level and `lat_ms` / `pair` /
`power_w` inside — are not the output-stream schema's
`aligned_timestamp_ns` / `source` / `fields` and
`latency_ms` / `stage_pair` / `power_w`. -/
theorem C9_field_names_differ_from_schema :
    outTopKeys ≠ specSchemaTopKeys ∧ outKvKeys ≠ specSchemaFieldKeys := by
  constructor <;> decide

/-- C9 (amended): every LatencySample drained during a pipeline step is
persisted exactly once, in order, as one record appended to the output stream
(written and flushed immediately), with `source = "metric.latency"`, the
sample's aligned timestamp and latency, the configured stage pair, and
`power_w` stamped from the current last-known power (`none` while no power
record has been processed) — under the code's field names, not the schema's. -/
theorem C9_latency_persisted_once (st : MuxState) (pr : PRec) (t : Int)
    (st' : MuxState) (ht : pr.ts_ns = some t)
    (h : processLine .pipeline st (some pr) = Except.ok st') :
    st'.outRecs = st.outRecs ++
      ((st.pairer.add { ts_aligned_ns := t, kv := pr.kv }).pairs.1).map
        (serializeSample st.last_power) ∧
    st'.outRecs.length = st.outRecs.length +
      ((st.pairer.add { ts_aligned_ns := t, kv := pr.kv }).pairs.1).length ∧
    ∀ (lp : Option ℚ) (s : Sample),
      serializeSample lp s =
        { ts_aligned_ns := s.t_ns, source := "metric.latency",
          lat_ms := s.lat_ms, pair := s.pair, power_w := lp } := by
  obtain ⟨ts, kv⟩ := pr
  have ht2 : ts = some t := ht
  subst ht2
  have h2 : Except.ok
      ({ st with
         pairer := (st.pairer.add { ts_aligned_ns := t, kv := kv }).pairs.2,
         outRecs := st.outRecs ++
           ((st.pairer.add { ts_aligned_ns := t, kv := kv }).pairs.1).map
             (serializeSample st.last_power) } : MuxState)
      = Except.ok st' := h
  injection h2 with h2
  subst h2
  exact ⟨rfl, by simp, fun lp s => rfl⟩

/-- The loop state used in the C9 witness: one stage-B event at 12 ns already
buffered, no power record seen yet. -/
def c9st : MuxState :=
  { pairer := { bufB := [⟨12, { stage := some "encoded" }⟩] } }

/-- The decoded stage-A line at 10 ns fed to `c9st`. -/
def c9pr : PRec := { ts_ns := some 10, kv := { stage := some "ingress" } }

/-- The resulting state: both deques drained, exactly one record appended,
stamped with `power_w = none`. -/
def c9st' : MuxState :=
  { pairer := { bufA := [], bufB := [] },
    outRecs := [serializeSample none (mkSample "ingress" "encoded" 10 12)] }

/-- Witness for C9 (amended): the concrete step pairing 10 ns with 12 ns
appends exactly one serialized record, with a `none` power stamp. -/
theorem C9_latency_persisted_once_witness :
    c9pr.ts_ns = some 10 ∧
    processLine .pipeline c9st (some c9pr) = Except.ok c9st' ∧
    (c9st'.outRecs = c9st.outRecs ++
        ((c9st.pairer.add { ts_aligned_ns := 10, kv := c9pr.kv }).pairs.1).map
          (serializeSample c9st.last_power) ∧
      c9st'.outRecs.length = c9st.outRecs.length +
        ((c9st.pairer.add { ts_aligned_ns := 10, kv := c9pr.kv }).pairs.1).length ∧
      ∀ (lp : Option ℚ) (s : Sample),
        serializeSample lp s =
          { ts_aligned_ns := s.t_ns, source := "metric.latency",
            lat_ms := s.lat_ms, pair := s.pair, power_w := lp }) := by
  have hadd : c9st.pairer.add { ts_aligned_ns := 10, kv := c9pr.kv }
      = ⟨"ingress", "encoded", [⟨10, { stage := some "ingress" }⟩],
         [⟨12, { stage := some "encoded" }⟩]⟩ := by decide
  have hpairs : (c9st.pairer.add { ts_aligned_ns := 10, kv := c9pr.kv }).pairs
      = ([mkSample "ingress" "encoded" 10 12],
         ⟨"ingress", "encoded", [], []⟩) := by
    rw [hadd]
    unfold Pairer.pairs
    rw [pairsGo_cons_within "ingress" "encoded" ⟨10, { stage := some "ingress" }⟩
          ⟨12, { stage := some "encoded" }⟩ [] [] (by decide),
        pairsGo_nil_left]
  have hproc : processLine .pipeline c9st (some c9pr) = Except.ok c9st' := by
    show Except.ok
        { c9st with
          pairer := (c9st.pairer.add { ts_aligned_ns := 10, kv := c9pr.kv }).pairs.2,
          outRecs := c9st.outRecs ++
            ((c9st.pairer.add { ts_aligned_ns := 10, kv := c9pr.kv }).pairs.1).map
              (serializeSample c9st.last_power) }
      = Except.ok c9st'
    rw [hpairs]
    rfl
  exact ⟨rfl, hproc, C9_latency_persisted_once c9st c9pr 10 c9st' rfl hproc⟩

end Muxd
